import Mathlib

/-!
Verification of the booking/cancellation core of a railway reservation
backend (source: src/routes/bookings.js, schema: database/schema.sql).

The relational store is embedded as a `DBState` record holding the rows of
the `trains`, `stations` and `bookings` tables.  Each Express handler of
bookings.js that the claims mention is translated into a pure Lean function
from request parameters and a `DBState` to a result value and the successor
`DBState`; the transaction (begin/commit/rollback) semantics of the handler
become all-or-nothing state updates.  SQL `DECIMAL` fares and JavaScript
numbers are modelled as `Int` (all arithmetic the code performs on them is
addition, subtraction and multiplication on exact values); SQL `DATE` values
and JavaScript `Date` timestamps are modelled as `Int` milliseconds since
the epoch.
-/

namespace Railway

/-- Row of the `trains` table (schema.sql): id, total_seats, fare. Columns
not read by the booking handlers (train_number, train_name, created_at) are
elided. -/
structure Train where
  id : Nat
  total_seats : Int
  fare : Int
deriving DecidableEq

/-- `booking_status ENUM('confirmed','cancelled')` of the bookings table. -/
inductive BookingStatus where
  | confirmed : BookingStatus
  | cancelled : BookingStatus
deriving DecidableEq

/-- Row of the `bookings` table (schema.sql). `booking_date` is an Int
timestamp in milliseconds; `created_at` is elided (never read by the
handlers). -/
structure Booking where
  id : Nat
  user_id : Nat
  train_id : Nat
  from_station_id : Nat
  to_station_id : Nat
  booking_date : Int
  seats_booked : Int
  total_fare : Int
  booking_status : BookingStatus
deriving DecidableEq

/-- The relational store: the three tables the booking handlers touch.
`stations` keeps only the ids (the only station column the booking logic
depends on); `nextId` is the AUTO_INCREMENT counter of `bookings.id`. -/
structure DBState where
  trains : List Train
  stations : List Nat
  bookings : List Booking
  nextId : Nat
deriving DecidableEq

/-- `SELECT * FROM trains WHERE id = ?` (bookings.js line 30): first train
row with the given id. -/
def findTrain (tid : Nat) (s : DBState) : Option Train :=
  s.trains.find? (fun t => decide (t.id = tid))

/-- The user-bookings query of the book handler (bookings.js lines 44-53):
confirmed bookings of this user for the same train, date and
origin/destination pair. -/
def userBookingsOf (s : DBState) (uid tid fid toid : Nat) (d : Int) : List Booking :=
  s.bookings.filter (fun b => decide (b.train_id = tid ∧ b.booking_date = d ∧
    b.booking_status = BookingStatus.confirmed ∧ b.user_id = uid ∧
    b.from_station_id = fid ∧ b.to_station_id = toid))

/-- The availability query of the book handler (bookings.js lines 60-68):
`SELECT COUNT(*) as booked_seats` over confirmed bookings for the same
train, date and origin/destination pair.  Note this is a row COUNT, not a
sum of `seats_booked`. -/
def countConfirmedRows (s : DBState) (tid fid toid : Nat) (d : Int) : Nat :=
  (s.bookings.filter (fun b => decide (b.train_id = tid ∧ b.booking_date = d ∧
    b.booking_status = BookingStatus.confirmed ∧
    b.from_station_id = fid ∧ b.to_station_id = toid))).length

/-- `userSeatsBooked` of the book handler (bookings.js line 56): seat count
of the first existing user booking, or 0. -/
def userSeatsBookedOf (s : DBState) (uid tid fid toid : Nat) (d : Int) : Int :=
  match userBookingsOf s uid tid fid toid d with
  | [] => 0
  | b :: _ => b.seats_booked

/-- Sum of `seats_booked` over confirmed bookings for a train, date and
origin/destination pair.  This is `committedSeats` as the specification
words it (spec section 4.2: sums seats from all confirmed bookings for the
same train, date and segment); the code itself uses `countConfirmedRows`
instead. -/
def sumConfirmedSeats (s : DBState) (tid fid toid : Nat) (d : Int) : Int :=
  ((s.bookings.filter (fun b => decide (b.train_id = tid ∧ b.booking_date = d ∧
    b.booking_status = BookingStatus.confirmed ∧
    b.from_station_id = fid ∧ b.to_station_id = toid))).map
    (fun b => b.seats_booked)).sum

/-- Spec-worded derived availability (spec section 3: `train.total_seats −
Σ(seats_booked over confirmed bookings for that train+date+segment)`).
Named `availableSpec` because the code computes availability differently
(see `book`). -/
def availableSpec (s : DBState) (tid fid toid : Nat) (d : Int) : Int :=
  match findTrain tid s with
  | none => 0
  | some t => t.total_seats - sumConfirmedSeats s tid fid toid d

/-- Result of the book handler (bookings.js POST /): train-not-found 404,
no-seats 400, a storage error rolled back as 500 (in the model this occurs
when an INSERT would violate a station foreign key), or the 201 success
payload (booking_id, seats_booked, fare, total_fare). -/
inductive BookResult where
  | trainNotFound : BookResult
  | noSeats : BookResult
  | serverError : BookResult
  | booked : Nat → Int → Int → Int → BookResult
deriving DecidableEq

/-- The row inserted by the book handler's INSERT (bookings.js lines
93-97): a new confirmed booking with `seats_booked = newSeatsBooked` (which
is 1 on this path, since no prior user booking exists) and `total_fare =
fare * newSeatsBooked`. -/
def newBooking (uid tid fid toid : Nat) (d : Int) (nid : Nat) (fare : Int) : Booking :=
  { id := nid, user_id := uid, train_id := tid,
    from_station_id := fid, to_station_id := toid,
    booking_date := d, seats_booked := 1, total_fare := fare * 1,
    booking_status := BookingStatus.confirmed }

/-- The book handler (bookings.js lines 16-120).  Looks up the train, reads
the caller's existing confirmed booking for the same train/date/segment,
computes `availableSeats = total_seats - COUNT(*) of confirmed rows`,
rejects when `availableSeats <= 0`, otherwise updates the existing booking
to `seats_booked + 1` with `total_fare = fare * newSeats`, or inserts a new
confirmed booking with 1 seat.  The handler reads no seat count from the
request body (only train_id, from_station_id, to_station_id, booking_date).
The INSERT is subject to the schema's station foreign keys; a violation
aborts the transaction with no mutation (`serverError`). -/
def book (uid tid fid toid : Nat) (d : Int) (s : DBState) : BookResult × DBState :=
  match findTrain tid s with
  | none => (BookResult.trainNotFound, s)
  | some t =>
    if t.total_seats - (countConfirmedRows s tid fid toid d : Int) ≤ 0 then
      (BookResult.noSeats, s)
    else
      match userBookingsOf s uid tid fid toid d with
      | b :: _ =>
        (BookResult.booked b.id (b.seats_booked + 1) t.fare (t.fare * (b.seats_booked + 1)),
         { s with bookings := s.bookings.map (fun r =>
             if r.id = b.id then
               { r with seats_booked := b.seats_booked + 1,
                        total_fare := t.fare * (b.seats_booked + 1) }
             else r) })
      | [] =>
        if fid ∈ s.stations ∧ toid ∈ s.stations then
          (BookResult.booked s.nextId 1 t.fare (t.fare * 1),
           { s with
             bookings := s.bookings ++ [newBooking uid tid fid toid d s.nextId t.fare],
             nextId := s.nextId + 1 })
        else (BookResult.serverError, s)

/-- Result of the cancel handler (bookings.js PATCH /:bookingId/cancel):
not-found 404, window-violation 400, over-cancel 400 (carrying the booked
count quoted in the message), or the success payload (booking_id,
remaining_seats, refund_amount). -/
inductive CancelResult where
  | notFound : CancelResult
  | windowViolation : CancelResult
  | overCancel : Int → CancelResult
  | ok : Nat → Int → Int → CancelResult
deriving DecidableEq

/-- The lookup query of the cancel handler (bookings.js lines 273-278):
`SELECT b.*, t.fare FROM bookings b JOIN trains t ON b.train_id = t.id
WHERE b.id = ? AND b.user_id = ? AND b.booking_status = 'confirmed'`. -/
def cancelLookup (uid bid : Nat) (s : DBState) : List (Booking × Train) :=
  s.bookings.filterMap (fun b =>
    if b.id = bid ∧ b.user_id = uid ∧ b.booking_status = BookingStatus.confirmed then
      (findTrain b.train_id s).map (fun t => (b, t))
    else none)

/-- 24 hours in milliseconds.  The handler computes `hoursUntilBooking =
(bookingDate - now) / 3600000` in JavaScript floating point and rejects
when it is `< 24`; on millisecond-integer inputs that comparison is exact
and equivalent to `bookingDate - now < 86400000`. -/
def msPerDay : Int := 24 * 60 * 60 * 1000

/-- The cancel handler (bookings.js lines 255-349).  Guards, in order:
booking exists, belongs to the caller and is confirmed (joined with its
train for the fare); at least 24 hours remain before the booking date;
`seatsToCancel ≤ seats_booked`.  On success: if all seats are cancelled,
set `booking_status = 'cancelled'` (touching no other column), otherwise
set `seats_booked = remaining` and `total_fare = remaining * fare`.
Returns `refund_amount = seatsToCancel * fare`.  `seatsToCancel` is the
validated `seats_to_cancel` body field (an integer ≥ 1, defaulting to 1);
`now` is the clock reading taken by the handler. -/
def cancel (uid bid : Nat) (seatsToCancel now : Int) (s : DBState) :
    CancelResult × DBState :=
  match cancelLookup uid bid s with
  | [] => (CancelResult.notFound, s)
  | (b, t) :: _ =>
    if b.booking_date - now < msPerDay then
      (CancelResult.windowViolation, s)
    else if seatsToCancel > b.seats_booked then
      (CancelResult.overCancel b.seats_booked, s)
    else
      if b.seats_booked - seatsToCancel = 0 then
        (CancelResult.ok bid (b.seats_booked - seatsToCancel) (seatsToCancel * t.fare),
         { s with bookings := s.bookings.map (fun r =>
             if r.id = bid then { r with booking_status := BookingStatus.cancelled }
             else r) })
      else
        (CancelResult.ok bid (b.seats_booked - seatsToCancel) (seatsToCancel * t.fare),
         { s with bookings := s.bookings.map (fun r =>
             if r.id = bid then
               { r with seats_booked := b.seats_booked - seatsToCancel,
                        total_fare := (b.seats_booked - seatsToCancel) * t.fare }
             else r) })

/-- Join condition of the listBookings query (bookings.js lines 204-218):
`JOIN trains t ON b.train_id = t.id JOIN stations s1 ON b.from_station_id =
s1.id JOIN stations s2 ON b.to_station_id = s2.id`.  A booking row appears
in the result only when its train and both stations exist. -/
def listJoinOk (s : DBState) (b : Booking) : Bool :=
  (findTrain b.train_id s).isSome && s.stations.contains b.from_station_id &&
    s.stations.contains b.to_station_id

/-- Stable insertion into a list sorted by `booking_date` descending:
models the `ORDER BY b.booking_date DESC` of the listBookings query. -/
def insertByDateDesc (b : Booking) : List Booking → List Booking
  | [] => [b]
  | c :: cs =>
    if c.booking_date < b.booking_date then b :: c :: cs
    else c :: insertByDateDesc b cs

/-- Sort by `booking_date` descending (stable insertion sort). -/
def sortByDateDesc : List Booking → List Booking
  | [] => []
  | b :: bs => insertByDateDesc b (sortByDateDesc bs)

/-- The rows returned by the listBookings query for a caller: the caller's
booking rows surviving the train/station joins, ordered by booking_date
descending.  (The joined display columns — train name/number/fare, station
names — come from the immutable trains/stations tables and are elided.) -/
def userRows (uid : Nat) (s : DBState) : List Booking :=
  sortByDateDesc (s.bookings.filter (fun b =>
    decide (b.user_id = uid) && listJoinOk s b))

/-- The per-row repair of the listBookings handler applied to the response
(`{...booking, seats_booked: booking.seats_booked || 1}`, bookings.js line
231): a stored seat count of 0 is reported as 1; nothing else changes. -/
def repairSeats (b : Booking) : Booking :=
  if b.seats_booked = 0 then { b with seats_booked := 1 } else b

/-- Ids of the rows the listBookings handler writes: for every returned
row whose stored `seats_booked` is falsy (0 in the integer model; the
column is NOT NULL so NULL cannot occur) it issues `UPDATE bookings SET
seats_booked = 1 WHERE id = ?` (bookings.js lines 221-228). -/
def writesOf (uid : Nat) (s : DBState) : List Nat :=
  ((userRows uid s).filter (fun b => decide (b.seats_booked = 0))).map
    (fun b => b.id)

/-- The listBookings handler (bookings.js GET /user/bookings, lines
200-246).  Reads the caller's rows; repairs legacy rows whose stored seat
count is 0 by persisting `seats_booked = 1`, and reports every row with
`seats_booked || 1`.  Returns the reported rows, the list of row ids the
handler wrote, and the new state. -/
def listBookings (uid : Nat) (s : DBState) :
    List Booking × List Nat × DBState :=
  ((userRows uid s).map repairSeats, writesOf uid s,
   { s with bookings := s.bookings.map (fun r =>
       if r.id ∈ writesOf uid s then { r with seats_booked := 1 } else r) })

/-- A request against the booking service: one book or one cancel handler
invocation (with the clock reading the cancel handler takes). -/
inductive Op where
  | book : Nat → Nat → Nat → Nat → Int → Op
  | cancel : Nat → Nat → Int → Int → Op

/-- State reached after one handler invocation. -/
def applyOp (s : DBState) : Op → DBState
  | Op.book uid tid fid toid d => (book uid tid fid toid d s).2
  | Op.cancel uid bid k now => (cancel uid bid k now s).2

/-- State reached after a sequence of handler invocations. -/
def applyOps (s : DBState) (ops : List Op) : DBState :=
  ops.foldl applyOp s

/-- Primary-key invariant of the bookings table: row ids are pairwise
distinct and the AUTO_INCREMENT counter is strictly above every existing
id. -/
def IdsOk (s : DBState) : Prop :=
  (s.bookings.map (fun b => b.id)).Nodup ∧ ∀ b ∈ s.bookings, b.id < s.nextId

/-- One booking row satisfies the fare-consistency condition of the spec
(section 3): a confirmed booking has `total_fare = seats_booked ×
train.fare` (vacuously true for cancelled rows and rows whose train is
absent). -/
def fareOkT (trains : List Train) (b : Booking) : Bool :=
  match b.booking_status, trains.find? (fun t => decide (t.id = b.train_id)) with
  | BookingStatus.confirmed, some t => decide (b.total_fare = b.seats_booked * t.fare)
  | _, _ => true

/-- The fare-consistency invariant over a whole state. -/
def FareConsistent (s : DBState) : Prop :=
  ∀ b ∈ s.bookings, fareOkT s.trains b = true

/-- Fixture: a train with 2 total seats and fare 100, two stations, no
bookings yet. -/
def twoSeatState : DBState :=
  { trains := [{ id := 1, total_seats := 2, fare := 100 }],
    stations := [10, 20], bookings := [], nextId := 1 }

/-- Fixture: one `book` request by user 7 for train 1, stations 10 → 20,
date 0. -/
def demoBookOp : Op := Op.book 7 1 10 20 0

/-- Fixture train for the cancel scenarios. -/
def cancelDemoTrain : Train := { id := 1, total_seats := 10, fare := 100 }

/-- Fixture: a confirmed booking of 5 seats for user 7 whose travel date is
exactly 24 hours (86400000 ms) after clock reading 0. -/
def cancelDemoBooking : Booking :=
  { id := 1, user_id := 7, train_id := 1, from_station_id := 10,
    to_station_id := 20, booking_date := 86400000, seats_booked := 5,
    total_fare := 500, booking_status := BookingStatus.confirmed }

/-- Fixture state holding `cancelDemoBooking`. -/
def cancelDemoState : DBState :=
  { trains := [cancelDemoTrain], stations := [10, 20],
    bookings := [cancelDemoBooking], nextId := 2 }

/-- Fixture: a legacy confirmed booking whose stored seat count is 0. -/
def legacyBooking : Booking :=
  { id := 1, user_id := 7, train_id := 1, from_station_id := 10,
    to_station_id := 20, booking_date := 5, seats_booked := 0,
    total_fare := 0, booking_status := BookingStatus.confirmed }

/-- Fixture state for the read-repair scenario: the legacy zero-seat row
next to a healthy row of 3 seats on a later date. -/
def legacyState : DBState :=
  { trains := [cancelDemoTrain], stations := [10, 20],
    bookings := [legacyBooking,
      { id := 2, user_id := 7, train_id := 1, from_station_id := 10,
        to_station_id := 20, booking_date := 9, seats_booked := 3,
        total_fare := 300, booking_status := BookingStatus.confirmed }],
    nextId := 3 }

theorem mem_userBookingsOf {s : DBState} {uid tid fid toid : Nat} {d : Int}
    {b : Booking} (h : b ∈ userBookingsOf s uid tid fid toid d) :
    b ∈ s.bookings ∧ b.train_id = tid ∧ b.booking_date = d ∧
    b.booking_status = BookingStatus.confirmed ∧ b.user_id = uid ∧
    b.from_station_id = fid ∧ b.to_station_id = toid := by
  rw [userBookingsOf, List.mem_filter] at h
  simpa using h

theorem cancelLookup_head {uid bid : Nat} {s : DBState} {b : Booking} {t : Train}
    {tl : List (Booking × Train)} (hlook : cancelLookup uid bid s = (b, t) :: tl) :
    b ∈ s.bookings ∧ b.id = bid ∧ b.user_id = uid ∧
    b.booking_status = BookingStatus.confirmed ∧ findTrain b.train_id s = some t := by
  have hmem : (b, t) ∈ cancelLookup uid bid s := by
    rw [hlook]; exact List.mem_cons_self _ _
  rw [cancelLookup, List.mem_filterMap] at hmem
  obtain ⟨x, hx, hfx⟩ := hmem
  by_cases hc : x.id = bid ∧ x.user_id = uid ∧ x.booking_status = BookingStatus.confirmed
  · rw [if_pos hc] at hfx
    obtain ⟨t2, ht2, hpair⟩ := Option.map_eq_some'.mp hfx
    obtain ⟨hxb, htt⟩ := Prod.mk.injEq .. ▸ hpair
    subst hxb; subst htt
    exact ⟨hx, hc.1, hc.2.1, hc.2.2, ht2⟩
  · rw [if_neg hc] at hfx
    exact absurd hfx (by simp)

theorem eq_of_mem_of_id_eq {s : DBState}
    (hnd : (s.bookings.map (fun b => b.id)).Nodup)
    {r b : Booking} (hr : r ∈ s.bookings) (hb : b ∈ s.bookings)
    (h : r.id = b.id) : r = b :=
  List.inj_on_of_nodup_map hnd hr hb h

/-- The book handler never touches the trains or stations tables nor, for
existing rows, the AUTO_INCREMENT counter except by its own insert. -/
theorem book_frame (uid tid fid toid : Nat) (d : Int) (s : DBState) :
    (book uid tid fid toid d s).2.trains = s.trains ∧
    (book uid tid fid toid d s).2.stations = s.stations := by
  rw [book]
  cases findTrain tid s with
  | none => exact ⟨rfl, rfl⟩
  | some t =>
    dsimp only
    split
    · exact ⟨rfl, rfl⟩
    · cases userBookingsOf s uid tid fid toid d with
      | cons b l => exact ⟨rfl, rfl⟩
      | nil =>
        dsimp only
        split
        · exact ⟨rfl, rfl⟩
        · exact ⟨rfl, rfl⟩

/-- The cancel handler never touches trains, stations or the counter. -/
theorem cancel_frame (uid bid : Nat) (k now : Int) (s : DBState) :
    (cancel uid bid k now s).2.trains = s.trains ∧
    (cancel uid bid k now s).2.stations = s.stations ∧
    (cancel uid bid k now s).2.nextId = s.nextId := by
  rw [cancel]
  cases cancelLookup uid bid s with
  | nil => exact ⟨rfl, rfl, rfl⟩
  | cons p tl =>
    obtain ⟨b, t⟩ := p
    dsimp only
    split
    · exact ⟨rfl, rfl, rfl⟩
    · split
      · exact ⟨rfl, rfl, rfl⟩
      · split
        · exact ⟨rfl, rfl, rfl⟩
        · exact ⟨rfl, rfl, rfl⟩

/-- Filtering after a row transformation that does not affect the filter
condition equals transforming the filtered rows. -/
theorem filter_map_pred (p : Booking → Bool) (f : Booking → Booking)
    (l : List Booking) (hf : ∀ r ∈ l, p (f r) = p r) :
    (l.map f).filter p = (l.filter p).map f := by
  rw [List.filter_map]
  congr 1
  exact List.filter_congr hf

theorem mem_insertByDateDesc {a b : Booking} {l : List Booking} :
    a ∈ insertByDateDesc b l ↔ a = b ∨ a ∈ l := by
  induction l with
  | nil => simp [insertByDateDesc]
  | cons c cs ih =>
    rw [insertByDateDesc]
    split
    · simp
    · simp only [List.mem_cons, ih]
      tauto

theorem mem_sortByDateDesc {a : Booking} {l : List Booking} :
    a ∈ sortByDateDesc l ↔ a ∈ l := by
  induction l with
  | nil => simp [sortByDateDesc]
  | cons c cs ih =>
    rw [sortByDateDesc, mem_insertByDateDesc, ih]
    simp

theorem insertByDateDesc_map (f : Booking → Booking)
    (hf : ∀ b, (f b).booking_date = b.booking_date) (b : Booking)
    (l : List Booking) :
    insertByDateDesc (f b) (l.map f) = (insertByDateDesc b l).map f := by
  induction l with
  | nil => simp [insertByDateDesc]
  | cons c cs ih =>
    simp only [List.map_cons, insertByDateDesc, hf]
    split
    · simp
    · simp [ih]

theorem sortByDateDesc_map (f : Booking → Booking)
    (hf : ∀ b, (f b).booking_date = b.booking_date) (l : List Booking) :
    sortByDateDesc (l.map f) = (sortByDateDesc l).map f := by
  induction l with
  | nil => simp [sortByDateDesc]
  | cons c cs ih =>
    simp only [List.map_cons, sortByDateDesc, ih]
    exact insertByDateDesc_map f hf c (sortByDateDesc cs)

/-- C1: the no-oversell invariant of the spec fails on the code.  The book
handler computes availability as `total_seats - COUNT(*)` over confirmed
booking rows, not as `total_seats - SUM(seats_booked)`, while repeat
bookings by the same user grow `seats_booked` of a single row.  On a train
with 2 total seats, three consecutive book requests by user 7 (same
train/date/segment) are all admitted, leaving a confirmed seat sum of 3 on
a capacity of 2. -/
theorem oversell_after_three_books :
    sumConfirmedSeats (applyOps twoSeatState [demoBookOp, demoBookOp, demoBookOp])
        1 10 20 0 = 3 ∧
    (findTrain 1 (applyOps twoSeatState [demoBookOp, demoBookOp, demoBookOp])).map
        (fun t => t.total_seats) = some 2 := by
  decide

/-- C2, counterexample: the claim says a book request is rejected exactly
when the requested seat count (always 1) exceeds `total_seats -
SUM(seats_booked)`.  After two bookings by user 7 on the 2-seat train the
sum-based availability is 0, so the claim demands rejection — but the code
admits the request (it compares against the row COUNT instead) and mutates
the state. -/
theorem bookGuard_claim_counterexample :
    availableSpec (applyOps twoSeatState [demoBookOp, demoBookOp]) 1 10 20 0 ≤ 0 ∧
    (book 7 1 10 20 0 (applyOps twoSeatState [demoBookOp, demoBookOp])).1 =
      BookResult.booked 1 3 100 300 ∧
    (book 7 1 10 20 0 (applyOps twoSeatState [demoBookOp, demoBookOp])).2 ≠
      applyOps twoSeatState [demoBookOp, demoBookOp] := by
  decide

/-- C2, amended: for an existing train, the book handler rejects with the
capacity error and leaves the state unchanged exactly when `total_seats`
minus the COUNT of confirmed booking rows for that train/date/segment is
≤ 0 (the implicit requested count is 1); otherwise it is admitted — the
caller's existing confirmed booking for the same (user, train, date,
segment) key gets `seats_booked + 1` with recomputed `total_fare`, or a
fresh one-seat confirmed booking is inserted (provided its stations exist,
as the schema's foreign keys require). -/
theorem book_admission_guard (uid tid fid toid : Nat) (d : Int) (s : DBState)
    (t : Train) (ht : findTrain tid s = some t) :
    ((book uid tid fid toid d s).1 = BookResult.noSeats ∧
       (book uid tid fid toid d s).2 = s ↔
     t.total_seats - (countConfirmedRows s tid fid toid d : Int) ≤ 0) ∧
    (0 < t.total_seats - (countConfirmedRows s tid fid toid d : Int) →
      (∀ b l, userBookingsOf s uid tid fid toid d = b :: l →
        book uid tid fid toid d s =
          (BookResult.booked b.id (b.seats_booked + 1) t.fare
             (t.fare * (b.seats_booked + 1)),
           { s with bookings := s.bookings.map (fun r =>
               if r.id = b.id then
                 { r with seats_booked := b.seats_booked + 1,
                          total_fare := t.fare * (b.seats_booked + 1) }
               else r) })) ∧
      (userBookingsOf s uid tid fid toid d = [] →
        fid ∈ s.stations → toid ∈ s.stations →
        book uid tid fid toid d s =
          (BookResult.booked s.nextId 1 t.fare (t.fare * 1),
           { s with
             bookings := s.bookings ++
               [newBooking uid tid fid toid d s.nextId t.fare],
             nextId := s.nextId + 1 }))) := by
  by_cases hav : t.total_seats - (countConfirmedRows s tid fid toid d : Int) ≤ 0
  · refine ⟨⟨fun _ => hav, fun _ => ?_⟩, fun h => absurd h (by omega)⟩
    rw [book, ht]
    dsimp only
    rw [if_pos hav]
    exact ⟨rfl, rfl⟩
  · constructor
    · constructor
      · intro hno
        exfalso
        rcases hno with ⟨h1, _⟩
        rw [book, ht] at h1
        simp only [if_neg hav] at h1
        cases hub : userBookingsOf s uid tid fid toid d with
        | cons b l => rw [hub] at h1; simp at h1
        | nil =>
          rw [hub] at h1
          dsimp only at h1
          by_cases hst : fid ∈ s.stations ∧ toid ∈ s.stations
          · rw [if_pos hst] at h1; simp at h1
          · rw [if_neg hst] at h1; simp at h1
      · intro h; exact absurd h hav
    · intro _
      constructor
      · intro b l hub
        rw [book, ht]
        simp only [if_neg hav]
        rw [hub]
      · intro hub hfid htoid
        rw [book, ht]
        simp only [if_neg hav]
        rw [hub]
        dsimp only
        rw [if_pos ⟨hfid, htoid⟩]

/-- Witness for `book_admission_guard`: on the fresh two-seat fixture the
insert branch admits user 7 with one seat. -/
theorem book_admission_guard_witness :
    book 7 1 10 20 0 twoSeatState =
      (BookResult.booked 1 1 100 (100 * 1),
       { twoSeatState with
         bookings := [newBooking 7 1 10 20 0 1 100], nextId := 2 }) := by
  have h := book_admission_guard 7 1 10 20 0 twoSeatState
    { id := 1, total_seats := 2, fare := 100 } (by decide)
  exact (h.2 (by decide)).2 (by decide) (by decide) (by decide)

/-- C4: for a cancel request on a confirmed booking of the caller with
`seatsToCancel ≤ seats_booked`, a travel date strictly less than 24 hours
(86400000 ms) after the processing time is rejected with the window
violation and no state change, while a travel date exactly 24 hours away
or more succeeds. -/
theorem cancel_window_boundary (uid bid : Nat) (k now : Int) (s : DBState)
    (b : Booking) (t : Train) (tl : List (Booking × Train))
    (hlook : cancelLookup uid bid s = (b, t) :: tl)
    (hk : k ≤ b.seats_booked) :
    (b.booking_date - now < msPerDay →
      cancel uid bid k now s = (CancelResult.windowViolation, s)) ∧
    (msPerDay ≤ b.booking_date - now →
      (cancel uid bid k now s).1 =
        CancelResult.ok bid (b.seats_booked - k) (k * t.fare)) := by
  constructor
  · intro hw
    rw [cancel, hlook]
    dsimp only
    rw [if_pos hw]
  · intro hw
    rw [cancel, hlook]
    dsimp only
    rw [if_neg (by omega : ¬ b.booking_date - now < msPerDay),
        if_neg (by omega : ¬ k > b.seats_booked)]
    by_cases hz : b.seats_booked - k = 0
    · rw [if_pos hz]
    · rw [if_neg hz]

/-- Witness for `cancel_window_boundary`: cancelling 2 of 5 seats exactly
24 hours before travel succeeds with 3 seats remaining and a 200 refund. -/
theorem cancel_window_boundary_witness :
    (cancel 7 1 2 0 cancelDemoState).1 = CancelResult.ok 1 3 200 := by
  have h := cancel_window_boundary 7 1 2 0 cancelDemoState cancelDemoBooking
    cancelDemoTrain [] (by decide) (by decide)
  exact h.2 (by decide)

/-- C5: cancelling k of n booked seats (guards satisfied) leaves the
booking with `seats_booked = n - k`, `total_fare = (n - k) × fare` and
status still confirmed when k < n; when k = n the status transitions to
cancelled. -/
theorem cancel_seat_update (uid bid : Nat) (k now : Int) (s : DBState)
    (b : Booking) (t : Train) (tl : List (Booking × Train))
    (hlook : cancelLookup uid bid s = (b, t) :: tl)
    (hw : msPerDay ≤ b.booking_date - now)
    (hk0 : 0 < k) (hk : k ≤ b.seats_booked) :
    (k < b.seats_booked →
       { b with seats_booked := b.seats_booked - k,
                total_fare := (b.seats_booked - k) * t.fare } ∈
         (cancel uid bid k now s).2.bookings ∧
       b.booking_status = BookingStatus.confirmed) ∧
    (k = b.seats_booked →
       { b with booking_status := BookingStatus.cancelled } ∈
         (cancel uid bid k now s).2.bookings) := by
  obtain ⟨hb, hbid, huid, hstat, hft⟩ := cancelLookup_head hlook
  constructor
  · intro hlt
    refine ⟨?_, hstat⟩
    rw [cancel, hlook]
    dsimp only
    rw [if_neg (by omega : ¬ b.booking_date - now < msPerDay),
        if_neg (by omega : ¬ k > b.seats_booked),
        if_neg (by omega : ¬ b.seats_booked - k = 0)]
    dsimp only
    have hmap := List.mem_map_of_mem (fun r =>
      if r.id = bid then
        { r with seats_booked := b.seats_booked - k,
                 total_fare := (b.seats_booked - k) * t.fare }
      else r) hb
    dsimp only at hmap
    rw [if_pos hbid] at hmap
    exact hmap
  · intro heq
    rw [cancel, hlook]
    dsimp only
    rw [if_neg (by omega : ¬ b.booking_date - now < msPerDay),
        if_neg (by omega : ¬ k > b.seats_booked),
        if_pos (by omega : b.seats_booked - k = 0)]
    dsimp only
    have hmap := List.mem_map_of_mem (fun r =>
      if r.id = bid then { r with booking_status := BookingStatus.cancelled }
      else r) hb
    dsimp only at hmap
    rw [if_pos hbid] at hmap
    exact hmap

/-- Witness for `cancel_seat_update`: cancelling 2 of the 5 booked seats
leaves a confirmed 3-seat booking with fare 300 in the store. -/
theorem cancel_seat_update_witness :
    { cancelDemoBooking with seats_booked := 3, total_fare := 300 } ∈
      (cancel 7 1 2 0 cancelDemoState).2.bookings ∧
    cancelDemoBooking.booking_status = BookingStatus.confirmed := by
  have h := (cancel_seat_update 7 1 2 0 cancelDemoState cancelDemoBooking
    cancelDemoTrain [] (by decide) (by decide) (by decide) (by decide)).1
    (by decide)
  exact h

/-- C6: a cancel request for more seats than booked is rejected with no
state mutation; when the 24-hour window guard passes, the error reported is
the over-cancel error quoting the booked count.  (The handler checks the
window first, so inside the window the rejection is the window violation
instead — in either case nothing is written.) -/
theorem cancel_over_cancel_rejection (uid bid : Nat) (k now : Int)
    (s : DBState) (b : Booking) (t : Train) (tl : List (Booking × Train))
    (hlook : cancelLookup uid bid s = (b, t) :: tl)
    (hk : b.seats_booked < k) :
    (cancel uid bid k now s).2 = s ∧
    (∀ i r f, (cancel uid bid k now s).1 ≠ CancelResult.ok i r f) ∧
    (msPerDay ≤ b.booking_date - now →
      (cancel uid bid k now s).1 = CancelResult.overCancel b.seats_booked) := by
  rw [cancel, hlook]
  dsimp only
  by_cases hw : b.booking_date - now < msPerDay
  · rw [if_pos hw]
    exact ⟨rfl, fun i r f h => CancelResult.noConfusion h,
           fun h2 => absurd hw (by omega)⟩
  · rw [if_neg hw, if_pos (by omega : k > b.seats_booked)]
    exact ⟨rfl, fun i r f h => CancelResult.noConfusion h, fun _ => rfl⟩

/-- Witness for `cancel_over_cancel_rejection`: asking to cancel 6 of 5
booked seats changes nothing and reports the over-cancel error with the
booked count 5. -/
theorem cancel_over_cancel_rejection_witness :
    (cancel 7 1 6 0 cancelDemoState).2 = cancelDemoState ∧
    (cancel 7 1 6 0 cancelDemoState).1 = CancelResult.overCancel 5 := by
  have h := cancel_over_cancel_rejection 7 1 6 0 cancelDemoState
    cancelDemoBooking cancelDemoTrain [] (by decide) (by decide)
  exact ⟨h.1, h.2.2 (by decide)⟩

/-- C7: every successful cancel returns `refund_amount = seatsToCancel ×
fare`; the refund is advisory — besides the cancelled booking's own row,
no table, counter or other booking row changes. -/
theorem cancel_refund_advisory (uid bid : Nat) (k now : Int) (s : DBState)
    (b : Booking) (t : Train) (tl : List (Booking × Train))
    (hlook : cancelLookup uid bid s = (b, t) :: tl)
    (hw : msPerDay ≤ b.booking_date - now)
    (hk : k ≤ b.seats_booked) :
    (cancel uid bid k now s).1 =
      CancelResult.ok bid (b.seats_booked - k) (k * t.fare) ∧
    (cancel uid bid k now s).2.trains = s.trains ∧
    (cancel uid bid k now s).2.stations = s.stations ∧
    (cancel uid bid k now s).2.nextId = s.nextId ∧
    ∀ r ∈ s.bookings, r.id ≠ bid → r ∈ (cancel uid bid k now s).2.bookings := by
  have hfr := cancel_frame uid bid k now s
  refine ⟨?_, hfr.1, hfr.2.1, hfr.2.2, ?_⟩
  · rw [cancel, hlook]
    dsimp only
    rw [if_neg (by omega : ¬ b.booking_date - now < msPerDay),
        if_neg (by omega : ¬ k > b.seats_booked)]
    by_cases hz : b.seats_booked - k = 0
    · rw [if_pos hz]
    · rw [if_neg hz]
  · intro r hr hne
    rw [cancel, hlook]
    dsimp only
    rw [if_neg (by omega : ¬ b.booking_date - now < msPerDay),
        if_neg (by omega : ¬ k > b.seats_booked)]
    by_cases hz : b.seats_booked - k = 0
    · rw [if_pos hz]
      dsimp only
      have hmap := List.mem_map_of_mem (fun r =>
        if r.id = bid then { r with booking_status := BookingStatus.cancelled }
        else r) hr
      dsimp only at hmap
      rw [if_neg hne] at hmap
      exact hmap
    · rw [if_neg hz]
      dsimp only
      have hmap := List.mem_map_of_mem (fun r =>
        if r.id = bid then
          { r with seats_booked := b.seats_booked - k,
                   total_fare := (b.seats_booked - k) * t.fare }
        else r) hr
      dsimp only at hmap
      rw [if_neg hne] at hmap
      exact hmap

/-- Witness for `cancel_refund_advisory`: cancelling 2 of 5 seats refunds
2 × 100 and leaves trains, stations and the id counter untouched. -/
theorem cancel_refund_advisory_witness :
    (cancel 7 1 2 0 cancelDemoState).1 = CancelResult.ok 1 3 200 ∧
    (cancel 7 1 2 0 cancelDemoState).2.trains = cancelDemoState.trains := by
  have h := cancel_refund_advisory 7 1 2 0 cancelDemoState cancelDemoBooking
    cancelDemoTrain [] (by decide) (by decide) (by decide)
  exact ⟨h.1, h.2.1⟩

/-- C10: a full cancellation (`seatsToCancel = seats_booked`) rewrites the
state to exactly the old state with the booking's `booking_status` set to
cancelled — `seats_booked` and `total_fare` keep their last confirmed
values and no other row, table or counter changes. -/
theorem cancel_full_only_status (uid bid : Nat) (k now : Int) (s : DBState)
    (b : Booking) (t : Train) (tl : List (Booking × Train))
    (hlook : cancelLookup uid bid s = (b, t) :: tl)
    (hw : msPerDay ≤ b.booking_date - now)
    (hk : k = b.seats_booked) :
    (cancel uid bid k now s).2 =
      { s with bookings := s.bookings.map (fun r =>
          if r.id = bid then { r with booking_status := BookingStatus.cancelled }
          else r) } := by
  rw [cancel, hlook]
  dsimp only
  rw [if_neg (by omega : ¬ b.booking_date - now < msPerDay),
      if_neg (by omega : ¬ k > b.seats_booked),
      if_pos (by omega : b.seats_booked - k = 0)]

/-- Witness for `cancel_full_only_status`: fully cancelling the 5-seat
booking yields the state whose only difference is that row's status. -/
theorem cancel_full_only_status_witness :
    (cancel 7 1 5 0 cancelDemoState).2 =
      { cancelDemoState with bookings := cancelDemoState.bookings.map (fun r =>
          if r.id = 1 then { r with booking_status := BookingStatus.cancelled }
          else r) } := by
  exact cancel_full_only_status 7 1 5 0 cancelDemoState cancelDemoBooking
    cancelDemoTrain [] (by decide) (by decide) (by decide)

/-- C9: a successful book request admits exactly one seat.  The handler
reads no seat count from the request (its validated body is only train_id,
from_station_id, to_station_id, booking_date — see the signature of
`book`), and on success the caller's confirmed seat count for the (user,
train, date, segment) key becomes the prior count plus 1. -/
theorem book_admits_exactly_one_seat (uid tid fid toid : Nat) (d : Int)
    (s : DBState) (t : Train) (ht : findTrain tid s = some t)
    (hav : 0 < t.total_seats - (countConfirmedRows s tid fid toid d : Int))
    (hst : userBookingsOf s uid tid fid toid d = [] →
      fid ∈ s.stations ∧ toid ∈ s.stations) :
    ∃ i, (book uid tid fid toid d s).1 =
        BookResult.booked i (userSeatsBookedOf s uid tid fid toid d + 1) t.fare
          (t.fare * (userSeatsBookedOf s uid tid fid toid d + 1)) ∧
      userSeatsBookedOf (book uid tid fid toid d s).2 uid tid fid toid d =
        userSeatsBookedOf s uid tid fid toid d + 1 := by
  have hnle : ¬ t.total_seats - (countConfirmedRows s tid fid toid d : Int) ≤ 0 := by
    omega
  cases hub : userBookingsOf s uid tid fid toid d with
  | cons b l =>
    have hbook : book uid tid fid toid d s =
        (BookResult.booked b.id (b.seats_booked + 1) t.fare
           (t.fare * (b.seats_booked + 1)),
         { s with bookings := s.bookings.map (fun r =>
             if r.id = b.id then
               { r with seats_booked := b.seats_booked + 1,
                        total_fare := t.fare * (b.seats_booked + 1) }
             else r) }) := by
      rw [book, ht]
      dsimp only
      rw [if_neg hnle, hub]
    refine ⟨b.id, ?_, ?_⟩
    · rw [hbook, userSeatsBookedOf, hub]
    · have hcomm : userBookingsOf { s with bookings := s.bookings.map (fun r =>
          if r.id = b.id then
            { r with seats_booked := b.seats_booked + 1,
                     total_fare := t.fare * (b.seats_booked + 1) }
          else r) } uid tid fid toid d
          = (userBookingsOf s uid tid fid toid d).map (fun r =>
              if r.id = b.id then
                { r with seats_booked := b.seats_booked + 1,
                         total_fare := t.fare * (b.seats_booked + 1) }
              else r) := by
        rw [userBookingsOf, userBookingsOf]
        dsimp only
        apply filter_map_pred
        intro r hr
        by_cases hid : r.id = b.id
        · rw [if_pos hid]
        · rw [if_neg hid]
      rw [hbook]
      dsimp only
      simp only [userSeatsBookedOf]
      rw [hcomm, hub, List.map_cons]
      dsimp only
      rw [if_pos rfl]
  | nil =>
    obtain ⟨hfid, htoid⟩ := hst hub
    have hbook : book uid tid fid toid d s =
        (BookResult.booked s.nextId 1 t.fare (t.fare * 1),
         { s with
           bookings := s.bookings ++
             [newBooking uid tid fid toid d s.nextId t.fare],
           nextId := s.nextId + 1 }) := by
      rw [book, ht]
      dsimp only
      rw [if_neg hnle, hub]
      dsimp only
      rw [if_pos ⟨hfid, htoid⟩]
    have hfil : userBookingsOf { s with
        bookings := s.bookings ++
          [newBooking uid tid fid toid d s.nextId t.fare],
        nextId := s.nextId + 1 } uid tid fid toid d =
        [newBooking uid tid fid toid d s.nextId t.fare] := by
      rw [userBookingsOf] at hub ⊢
      dsimp only
      rw [List.filter_append, hub]
      simp [newBooking]
    refine ⟨s.nextId, ?_, ?_⟩
    · rw [hbook, userSeatsBookedOf, hub]
      norm_num
    · rw [hbook]
      dsimp only
      simp only [userSeatsBookedOf]
      rw [hfil, hub]
      dsimp only
      rw [newBooking]
      norm_num

/-- Witness for `book_admits_exactly_one_seat`: on the fresh fixture the
first booking of user 7 yields exactly one seat (0 prior + 1). -/
theorem book_admits_exactly_one_seat_witness :
    ∃ i, (book 7 1 10 20 0 twoSeatState).1 =
        BookResult.booked i (userSeatsBookedOf twoSeatState 7 1 10 20 0 + 1) 100
          (100 * (userSeatsBookedOf twoSeatState 7 1 10 20 0 + 1)) ∧
      userSeatsBookedOf (book 7 1 10 20 0 twoSeatState).2 7 1 10 20 0 =
        userSeatsBookedOf twoSeatState 7 1 10 20 0 + 1 := by
  exact book_admits_exactly_one_seat 7 1 10 20 0 twoSeatState
    { id := 1, total_seats := 2, fare := 100 } (by decide) (by decide)
    (fun _ => by decide)

theorem repairSeats_date (b : Booking) :
    (repairSeats b).booking_date = b.booking_date := by
  rw [repairSeats]; split <;> rfl

theorem repairSeats_user (b : Booking) :
    (repairSeats b).user_id = b.user_id := by
  rw [repairSeats]; split <;> rfl

theorem listJoinOk_repairSeats (s : DBState) (b : Booking) :
    listJoinOk s (repairSeats b) = listJoinOk s b := by
  rw [repairSeats]; split <;> rfl

theorem repairSeats_seats_ne (b : Booking) :
    (repairSeats b).seats_booked ≠ 0 := by
  by_cases h : b.seats_booked = 0
  · rw [repairSeats, if_pos h]
    norm_num
  · rw [repairSeats, if_neg h]
    exact h

theorem repairSeats_idem (b : Booking) :
    repairSeats (repairSeats b) = repairSeats b := by
  conv_lhs => rw [repairSeats]
  rw [if_neg (repairSeats_seats_ne b)]

/-- A row id is written by listBookings exactly when the caller's row with
that id survives the joins and has a stored seat count of 0 (under the
primary-key nodup invariant of the bookings table). -/
theorem mem_writesOf {uid : Nat} {s : DBState}
    (hnd : (s.bookings.map (fun b => b.id)).Nodup) {r : Booking}
    (hr : r ∈ s.bookings) :
    r.id ∈ writesOf uid s ↔
      (decide (r.user_id = uid) && listJoinOk s r) = true ∧
      r.seats_booked = 0 := by
  rw [writesOf]
  constructor
  · intro h
    rw [List.mem_map] at h
    obtain ⟨r2, hr2, hid⟩ := h
    rw [List.mem_filter] at hr2
    obtain ⟨hr2rows, hz⟩ := hr2
    rw [userRows, mem_sortByDateDesc, List.mem_filter] at hr2rows
    have heq : r2 = r := eq_of_mem_of_id_eq hnd hr2rows.1 hr hid
    subst heq
    exact ⟨hr2rows.2, by simpa using hz⟩
  · intro h
    obtain ⟨hp, hz⟩ := h
    have hrows : r ∈ (userRows uid s).filter
        (fun b => decide (b.seats_booked = 0)) := by
      rw [List.mem_filter, userRows, mem_sortByDateDesc, List.mem_filter]
      exact ⟨⟨hr, hp⟩, by simpa using hz⟩
    exact List.mem_map_of_mem (fun b => b.id) hrows

/-- The state listBookings leaves behind: every caller row that survives
the joins and stores 0 seats now stores 1 seat; all other rows are
untouched. -/
theorem listBookings_state_bookings {uid : Nat} {s : DBState}
    (hnd : (s.bookings.map (fun b => b.id)).Nodup) :
    (listBookings uid s).2.2.bookings = s.bookings.map (fun r =>
      if (decide (r.user_id = uid) && listJoinOk s r) = true ∧
          r.seats_booked = 0
      then { r with seats_booked := 1 } else r) := by
  rw [listBookings]
  dsimp only
  apply List.map_congr_left
  intro r hr
  by_cases h : r.id ∈ writesOf uid s
  · rw [if_pos h, if_pos ((mem_writesOf hnd hr).mp h)]
  · rw [if_neg h, if_neg (fun hc => h ((mem_writesOf hnd hr).mpr hc))]

/-- After the first read, the caller's joined rows are exactly the repaired
versions of the rows the first read returned. -/
theorem userRows_after_repair {uid : Nat} {s : DBState}
    (hnd : (s.bookings.map (fun b => b.id)).Nodup) :
    userRows uid (listBookings uid s).2.2 = (userRows uid s).map repairSeats := by
  have hjoin : ∀ b, listJoinOk (listBookings uid s).2.2 b = listJoinOk s b :=
    fun b => rfl
  rw [userRows, userRows]
  simp only [hjoin]
  rw [listBookings_state_bookings hnd]
  rw [filter_map_pred _ _ _ (by
    intro r hr
    by_cases hc : (decide (r.user_id = uid) && listJoinOk s r) = true ∧
        r.seats_booked = 0
    · rw [if_pos hc]; rfl
    · rw [if_neg hc])]
  rw [List.map_congr_left (fun r hr => ?_), sortByDateDesc_map repairSeats repairSeats_date]
  rw [List.mem_filter] at hr
  by_cases hz : r.seats_booked = 0
  · rw [if_pos ⟨hr.2, hz⟩, repairSeats, if_pos hz]
  · rw [if_neg (fun hc => hz hc.2), repairSeats, if_neg hz]

/-- The second read performs no write. -/
theorem writesOf_after_repair {uid : Nat} {s : DBState}
    (hnd : (s.bookings.map (fun b => b.id)).Nodup) :
    writesOf uid (listBookings uid s).2.2 = [] := by
  rw [writesOf, userRows_after_repair hnd]
  have hnone : ∀ b ∈ (userRows uid s).map repairSeats,
      ¬ (decide (b.seats_booked = 0) = true) := by
    intro b hb
    rw [List.mem_map] at hb
    obtain ⟨c, _, hc⟩ := hb
    subst hc
    simpa using repairSeats_seats_ne c
  rw [List.filter_eq_nil_iff.mpr hnone]
  rfl

theorem listBookings_out (uid : Nat) (s : DBState) :
    (listBookings uid s).1 = (userRows uid s).map repairSeats := by
  rw [listBookings]

theorem listBookings_writes (uid : Nat) (s : DBState) :
    (listBookings uid s).2.1 = writesOf uid s := by
  rw [listBookings]

/-- listBookings on a state it has no row to repair leaves the state
unchanged. -/
theorem listBookings_no_writes {uid : Nat} {s : DBState}
    (hw : writesOf uid s = []) : (listBookings uid s).2.2 = s := by
  rw [listBookings]
  dsimp only
  rw [hw]
  simp

/-- C8: idempotent read repair.  Every caller booking that survives the
joins and stores a zero seat count is reported with `seats_booked = 1`,
written to the store as 1, and listed among the write set; a second
listBookings on the resulting state performs no write, changes nothing and
reports the same rows.  (`seats_booked` is NOT NULL in the schema, so the
claim's "0 or missing" is the 0 case; row ids are assumed pairwise
distinct, the table's primary-key invariant.) -/
theorem listBookings_read_repair (uid : Nat) (s : DBState)
    (hnd : (s.bookings.map (fun b => b.id)).Nodup) :
    (listBookings uid (listBookings uid s).2.2).2.2 = (listBookings uid s).2.2 ∧
    (listBookings uid (listBookings uid s).2.2).1 = (listBookings uid s).1 ∧
    (listBookings uid (listBookings uid s).2.2).2.1 = [] ∧
    ∀ b ∈ s.bookings, b.user_id = uid → listJoinOk s b = true →
      b.seats_booked = 0 →
      { b with seats_booked := 1 } ∈ (listBookings uid s).1 ∧
      b.id ∈ (listBookings uid s).2.1 ∧
      { b with seats_booked := 1 } ∈ (listBookings uid s).2.2.bookings := by
  refine ⟨listBookings_no_writes (writesOf_after_repair hnd), ?_, ?_, ?_⟩
  · rw [listBookings_out, listBookings_out, userRows_after_repair hnd,
      List.map_map]
    exact List.map_congr_left (fun b _ => by
      simp only [Function.comp_apply]
      exact repairSeats_idem b)
  · rw [listBookings_writes]
    exact writesOf_after_repair hnd
  · intro b hb hbu hbj hbz
    have hpred : (decide (b.user_id = uid) && listJoinOk s b) = true := by
      simp [hbu, hbj]
    have hrows : b ∈ userRows uid s := by
      rw [userRows, mem_sortByDateDesc, List.mem_filter]
      exact ⟨hb, hpred⟩
    refine ⟨?_, ?_, ?_⟩
    · rw [listBookings_out]
      have hmap := List.mem_map_of_mem repairSeats hrows
      rwa [repairSeats, if_pos hbz] at hmap
    · rw [listBookings_writes]
      exact (mem_writesOf hnd hb).mpr ⟨hpred, hbz⟩
    · rw [listBookings_state_bookings hnd]
      have hmap := List.mem_map_of_mem (fun r =>
        if (decide (r.user_id = uid) && listJoinOk s r) = true ∧
            r.seats_booked = 0
        then { r with seats_booked := 1 } else r) hb
      dsimp only at hmap
      rwa [if_pos ⟨hpred, hbz⟩] at hmap

/-- Witness for `listBookings_read_repair`: on the legacy fixture the
zero-seat row is reported and persisted as one seat and the second read is
a no-op. -/
theorem listBookings_read_repair_witness :
    (listBookings 7 (listBookings 7 legacyState).2.2).2.2 =
      (listBookings 7 legacyState).2.2 ∧
    { legacyBooking with seats_booked := 1 } ∈ (listBookings 7 legacyState).1 ∧
    (listBookings 7 (listBookings 7 legacyState).2.2).2.1 = [] := by
  have h := listBookings_read_repair 7 legacyState (by decide)
  exact ⟨h.1,
    (h.2.2.2 legacyBooking (by decide) (by decide) (by decide) (by decide)).1,
    h.2.2.1⟩

theorem ids_map_eq (l : List Booking) (f : Booking → Booking)
    (hf : ∀ r ∈ l, (f r).id = r.id) :
    (l.map f).map (fun b => b.id) = l.map (fun b => b.id) := by
  rw [List.map_map]
  exact List.map_congr_left (fun r hr => by
    simp only [Function.comp_apply]
    exact hf r hr)

theorem fareOkT_cancelled (trains : List Train) (b : Booking)
    (h : b.booking_status = BookingStatus.cancelled) :
    fareOkT trains b = true := by
  rw [fareOkT, h]

theorem fareOkT_confirmed (trains : List Train) (b : Booking) (t : Train)
    (hs : b.booking_status = BookingStatus.confirmed)
    (hfind : trains.find? (fun tr => decide (tr.id = b.train_id)) = some t) :
    fareOkT trains b = decide (b.total_fare = b.seats_booked * t.fare) := by
  rw [fareOkT, hs, hfind]

theorem book_preserves (uid tid fid toid : Nat) (d : Int) (s : DBState)
    (hids : IdsOk s) (hf : FareConsistent s) :
    IdsOk (book uid tid fid toid d s).2 ∧
    FareConsistent (book uid tid fid toid d s).2 := by
  obtain ⟨hnd, hlt⟩ := hids
  rw [book]
  cases ht : findTrain tid s with
  | none => exact ⟨⟨hnd, hlt⟩, hf⟩
  | some t =>
    have hfind : s.trains.find? (fun tr => decide (tr.id = tid)) = some t := by
      rw [findTrain] at ht; exact ht
    dsimp only
    split
    · exact ⟨⟨hnd, hlt⟩, hf⟩
    · cases hub : userBookingsOf s uid tid fid toid d with
      | cons b l =>
        obtain ⟨hb, hbtid, hbd, hbstat, hbu, hbf, hbt⟩ :=
          mem_userBookingsOf (show b ∈ userBookingsOf s uid tid fid toid d by
            rw [hub]; exact List.mem_cons_self b l)
        refine ⟨⟨?_, ?_⟩, ?_⟩
        · dsimp only
          rw [ids_map_eq s.bookings _ (fun r hr => ?_)]
          · exact hnd
          · dsimp only
            by_cases hid : r.id = b.id
            · rw [if_pos hid]
            · rw [if_neg hid]
        · intro r2 hr2
          dsimp only at hr2 ⊢
          rw [List.mem_map] at hr2
          obtain ⟨r, hr, hrr⟩ := hr2
          subst hrr
          by_cases hid : r.id = b.id
          · rw [if_pos hid]
            exact hlt r hr
          · rw [if_neg hid]
            exact hlt r hr
        · intro r2 hr2
          dsimp only at hr2 ⊢
          rw [List.mem_map] at hr2
          obtain ⟨r, hr, hrr⟩ := hr2
          subst hrr
          by_cases hid : r.id = b.id
          · have hrb : r = b := eq_of_mem_of_id_eq hnd hr hb hid
            rw [hrb, if_pos rfl]
            rw [fareOkT_confirmed s.trains
              { b with seats_booked := b.seats_booked + 1,
                       total_fare := t.fare * (b.seats_booked + 1) } t hbstat
              (by dsimp only; rw [hbtid]; exact hfind)]
            dsimp only
            simp only [decide_eq_true_eq]
            exact mul_comm _ _
          · rw [if_neg hid]
            exact hf r hr
      | nil =>
        dsimp only
        split
        · refine ⟨⟨?_, ?_⟩, ?_⟩
          · dsimp only
            rw [List.map_append, List.nodup_append]
            refine ⟨hnd, List.nodup_singleton _, ?_⟩
            intro a ha hmem
            rw [List.mem_map] at ha
            obtain ⟨r, hr, hra⟩ := ha
            simp only [List.map_cons, List.map_nil, List.mem_singleton,
              newBooking] at hmem
            have := hlt r hr
            omega
          · intro r hr
            dsimp only at hr ⊢
            rw [List.mem_append] at hr
            cases hr with
            | inl h => have := hlt r h; omega
            | inr h =>
              rw [List.mem_singleton] at h
              subst h
              rw [newBooking]
              dsimp only
              omega
          · intro r hr
            dsimp only at hr ⊢
            rw [List.mem_append] at hr
            cases hr with
            | inl h => exact hf r h
            | inr h =>
              rw [List.mem_singleton] at h
              subst h
              rw [fareOkT_confirmed s.trains
                (newBooking uid tid fid toid d s.nextId t.fare) t
                (by rw [newBooking])
                (by rw [newBooking]; dsimp only; exact hfind)]
              rw [newBooking]
              dsimp only
              simp only [decide_eq_true_eq]
              exact mul_comm _ _
        · exact ⟨⟨hnd, hlt⟩, hf⟩

theorem cancel_preserves (uid bid : Nat) (k now : Int) (s : DBState)
    (hids : IdsOk s) (hf : FareConsistent s) :
    IdsOk (cancel uid bid k now s).2 ∧
    FareConsistent (cancel uid bid k now s).2 := by
  obtain ⟨hnd, hlt⟩ := hids
  rw [cancel]
  cases hlook : cancelLookup uid bid s with
  | nil => exact ⟨⟨hnd, hlt⟩, hf⟩
  | cons p tl =>
    obtain ⟨b, t⟩ := p
    obtain ⟨hb, hbid, huid, hstat, hft⟩ := cancelLookup_head hlook
    have hfind : s.trains.find? (fun tr => decide (tr.id = b.train_id)) = some t := by
      rw [findTrain] at hft; exact hft
    have hgen : ∀ (g : Booking → Booking),
        (∀ r ∈ s.bookings, (g r).id = r.id) →
        (∀ r ∈ s.bookings, fareOkT s.trains (g r) = true) →
        IdsOk { s with bookings := s.bookings.map g } ∧
        FareConsistent { s with bookings := s.bookings.map g } := by
      intro g hgid hgfare
      refine ⟨⟨?_, ?_⟩, ?_⟩
      · dsimp only
        rw [ids_map_eq s.bookings g hgid]
        exact hnd
      · intro r2 hr2
        dsimp only at hr2 ⊢
        rw [List.mem_map] at hr2
        obtain ⟨r, hr, hrr⟩ := hr2
        subst hrr
        rw [hgid r hr]
        exact hlt r hr
      · intro r2 hr2
        dsimp only at hr2 ⊢
        rw [List.mem_map] at hr2
        obtain ⟨r, hr, hrr⟩ := hr2
        subst hrr
        exact hgfare r hr
    dsimp only
    split
    · exact ⟨⟨hnd, hlt⟩, hf⟩
    · split
      · exact ⟨⟨hnd, hlt⟩, hf⟩
      · split
        · apply hgen
          · intro r hr
            dsimp only
            by_cases hid : r.id = bid
            · rw [if_pos hid]
            · rw [if_neg hid]
          · intro r hr
            dsimp only
            by_cases hid : r.id = bid
            · rw [if_pos hid]
              exact fareOkT_cancelled s.trains _ rfl
            · rw [if_neg hid]
              exact hf r hr
        · apply hgen
          · intro r hr
            dsimp only
            by_cases hid : r.id = bid
            · rw [if_pos hid]
            · rw [if_neg hid]
          · intro r hr
            dsimp only
            by_cases hid : r.id = bid
            · have hrb : r = b :=
                eq_of_mem_of_id_eq hnd hr hb (hid.trans hbid.symm)
              rw [hrb, if_pos (hrb ▸ hid)]
              rw [fareOkT_confirmed s.trains
                { b with seats_booked := b.seats_booked - k,
                         total_fare := (b.seats_booked - k) * t.fare } t hstat
                (by dsimp only; exact hfind)]
              dsimp only
              simp only [decide_eq_true_eq]
            · rw [if_neg hid]
              exact hf r hr

theorem applyOp_preserves (s : DBState) (o : Op)
    (hids : IdsOk s) (hf : FareConsistent s) :
    IdsOk (applyOp s o) ∧ FareConsistent (applyOp s o) := by
  cases o with
  | book uid tid fid toid d => exact book_preserves uid tid fid toid d s hids hf
  | cancel uid bid k now => exact cancel_preserves uid bid k now s hids hf

/-- C3: fare consistency is an invariant of the book/cancel state machine.
Starting from any state where row ids are valid primary keys (`IdsOk`) and
every confirmed booking satisfies `total_fare = seats_booked × train.fare`,
after any sequence of book and cancel handler invocations every confirmed
booking still satisfies it. -/
theorem fare_consistency_invariant (s : DBState) (ops : List Op)
    (hids : IdsOk s) (hf : FareConsistent s) :
    FareConsistent (applyOps s ops) := by
  induction ops generalizing s with
  | nil => exact hf
  | cons o rest ih =>
    have h1 := applyOp_preserves s o hids hf
    have hstep : applyOps s (o :: rest) = applyOps (applyOp s o) rest := by
      rw [applyOps, applyOps, List.foldl_cons]
    rw [hstep]
    exact ih (applyOp s o) h1.1 h1.2

/-- Witness for `fare_consistency_invariant`: two book requests on the
fresh fixture leave every confirmed booking fare-consistent. -/
theorem fare_consistency_invariant_witness :
    FareConsistent (applyOps twoSeatState [demoBookOp, demoBookOp]) := by
  apply fare_consistency_invariant twoSeatState [demoBookOp, demoBookOp]
  · exact ⟨by decide, by decide⟩
  · intro b hb
    simp [twoSeatState] at hb

end Railway

